import Mathlib

/-!
Shallow embedding of the keyboard status-display controller
(`src/central.rs`): geometry of the embedded-graphics primitives, the
frame renderer `draw` as a trace of draw primitives, the event handler
`process_event`, and the polling lifecycle `update`.
-/

namespace Falange

/-! ## Geometry (embedded-graphics `Point`, `Size`, `Rectangle`) -/

/-- `embedded_graphics::geometry::Point`: a pair of `i32` coordinates. -/
structure Pt where
  x : Int
  y : Int
deriving DecidableEq

instance : Add Pt := ⟨fun a b => ⟨a.x + b.x, a.y + b.y⟩⟩

instance : Sub Pt := ⟨fun a b => ⟨a.x - b.x, a.y - b.y⟩⟩

/-- `embedded_graphics::geometry::Size`: a pair of `u32` dimensions. -/
structure Sz where
  width : Nat
  height : Nat
deriving DecidableEq

/-- `embedded_graphics::primitives::Rectangle`: top-left corner plus size. -/
structure Rect where
  topLeft : Pt
  size : Sz
deriving DecidableEq

/-- `Size::center_offset`: `((w - 1) / 2, (h - 1) / 2)` with saturating
subtraction (Nat subtraction). -/
def centerOffset (s : Sz) : Pt :=
  ⟨((s.width - 1) / 2 : Nat), ((s.height - 1) / 2 : Nat)⟩

/-- `Rectangle::center`: `top_left + size.center_offset()`. -/
def Rect.center (r : Rect) : Pt := r.topLeft + centerOffset r.size

/-- `Rectangle::with_corners`: normalizes the two corners — top-left is the
componentwise minimum and the size is the absolute difference plus one. -/
def Rect.withCorners (c1 c2 : Pt) : Rect :=
  ⟨⟨min c1.x c2.x, min c1.y c2.y⟩,
   ⟨(c1.x - c2.x).natAbs + 1, (c1.y - c2.y).natAbs + 1⟩⟩

/-- `Rectangle::with_center`: `Rectangle::new(center - size.center_offset(), size)`. -/
def Rect.withCenter (c : Pt) (s : Sz) : Rect := ⟨c - centerOffset s, s⟩

/-! ## Data model -/

/-- `rmk::types::modifier::ModifierCombination`: independent left/right flags
for the four modifier families, as read through its accessor methods. -/
structure ModifierCombination where
  left_shift : Bool
  right_shift : Bool
  left_ctrl : Bool
  right_ctrl : Bool
  left_alt : Bool
  right_alt : Bool
  left_gui : Bool
  right_gui : Bool
deriving DecidableEq

/-- `ModifierCombination::new()`: all flags clear. -/
def ModifierCombination.new : ModifierCombination :=
  ⟨false, false, false, false, false, false, false, false⟩

/-- The two mono fonts used by the renderer (`FONT_9X18` primary,
`FONT_6X10` smaller). -/
inductive FontKind where
  | font9x18
  | font6x10
deriving DecidableEq

/-- The four compile-time icon rasters (`shift.raw`, `ctrl.raw`, `alt.raw`,
`gui.raw`). -/
inductive IconKind where
  | shift
  | ctrl
  | alt
  | gui
deriving DecidableEq

/-- `const LAYER_NAMES: [&str; 8]`. -/
def LAYER_NAMES : List String :=
  ["BASE", "NAV", "SYM", "NUM", "ACC", "COM", "GAME", "GAME"]

/-- Layer-name table lookup (`LAYER_NAMES[i]`; Rust panics out of bounds,
modelled totally with a default since every verified use is in range). -/
def layerName (i : Nat) : String := LAYER_NAMES.getD i ""

/-- The status snapshot the renderer reads: `self.layer`, `self.modifiers`,
`self.battery` (both integers are `u8` in the source). -/
structure Status where
  layer : Nat
  modifiers : ModifierCombination
  battery : Nat
deriving DecidableEq

/-! ## Layout cache (`Graphics::new` over the 128x32 surface) -/

/-- The display bounding box: `Rectangle::new(Point::zero(), Size::new(128, 32))`. -/
def displayBounds : Rect := ⟨⟨0, 0⟩, ⟨128, 32⟩⟩

/-- `display.bounding_box().center()` = `(63, 15)`. -/
def displayCenter : Pt := displayBounds.center

/-- `measure_string` width for a `FONT_9X18` string: 9 pixels per character,
no inter-character spacing. -/
def measureWidth9x18 (s : String) : Nat := s.length * 9

/-- `Graphics::layer_center`: x is the center of the measured bounding box of
the widest expected label `"GAME 2"` placed at the origin; y is the vertical
center of the display. -/
def layerCenter : Pt :=
  ⟨((measureWidth9x18 "GAME 2" - 1) / 2 : Nat), displayBounds.center.y⟩

/-- `character_style.font.character_size.height as i32 / 3 * 2` with the
`FONT_9X18` height of 18. -/
def layerLabelOffsetY : Int := 18 / 3 * 2

/-- Position of the previous-layer label: `layer_center - (0, 18/3*2)`. -/
def abovePos : Pt := layerCenter - ⟨0, layerLabelOffsetY⟩

/-- Position of the next-layer label: `layer_center + (0, 18/3*2)`. -/
def belowPos : Pt := layerCenter + ⟨0, layerLabelOffsetY⟩

/-! ## Frame renderer as a trace of draw primitives -/

/-- One submitted draw primitive of `DisplayController::draw`, in source
order. An `image` op records the icon and its effective center after the
held-state translation; rectangle ops record the style they are drawn with. -/
inductive DrawOp where
  | clearBuffer : DrawOp
  | text : String → Pt → FontKind → DrawOp
  | image : IconKind → Pt → DrawOp
  | fillRect : Rect → DrawOp
  | strokeRect : Rect → DrawOp
  | flush : DrawOp
deriving DecidableEq

/-- The three layer-name texts (`draw`, lines drawing previous/next/current). -/
def layerOps (layer : Nat) : List DrawOp :=
  (if 0 < layer then
    [DrawOp.text (layerName (layer - 1)) abovePos FontKind.font6x10]
  else [])
  ++ (if layer < LAYER_NAMES.length - 1 then
    [DrawOp.text (layerName (layer + 1)) belowPos FontKind.font6x10]
  else [])
  ++ [DrawOp.text (layerName layer) layerCenter FontKind.font9x18]

/-- Rust `bool as i32`. -/
def b2i (b : Bool) : Int := if b then 1 else 0

/-- One modifier family: the icon image centered at
`display.center + (dx, 0)` translated by `(0, held as i32 * -4)`, followed by
the filled 12x2 underline bar at `display.center + (dx, 5)` when held. -/
def iconFamilyOps (icon : IconKind) (dx : Int) (held : Bool) : List DrawOp :=
  DrawOp.image icon (displayCenter + ⟨dx, 0⟩ + ⟨0, b2i held * (-4)⟩)
  :: (if held then
    [DrawOp.fillRect (Rect.withCenter (displayCenter + ⟨dx, 5⟩) ⟨12, 2⟩)]
  else [])

/-- `left_shift() || right_shift()`. -/
def shiftHeld (m : ModifierCombination) : Bool := m.left_shift || m.right_shift

/-- `left_ctrl() || right_ctrl()`. -/
def ctrlHeld (m : ModifierCombination) : Bool := m.left_ctrl || m.right_ctrl

/-- `left_alt() || right_alt()`. -/
def altHeld (m : ModifierCombination) : Bool := m.left_alt || m.right_alt

/-- `left_gui() || right_gui()`. -/
def guiHeld (m : ModifierCombination) : Bool := m.left_gui || m.right_gui

/-- The four modifier families in source order at offsets 0, 15, 30, 45. -/
def iconOps (m : ModifierCombination) : List DrawOp :=
  iconFamilyOps IconKind.shift 0 (shiftHeld m)
  ++ iconFamilyOps IconKind.ctrl 15 (ctrlHeld m)
  ++ iconFamilyOps IconKind.alt 30 (altHeld m)
  ++ iconFamilyOps IconKind.gui 45 (guiHeld m)

/-- Battery outline: `Rectangle::with_corners((123, 0), (127, 31))`, stroked. -/
def batteryOutline : Rect := Rect.withCorners ⟨123, 0⟩ ⟨127, 31⟩

/-- Battery fill: `Rectangle::with_corners((124, 32 - (battery as i32 * 32) / 100),
(126, 31))`, filled. -/
def batteryFillRect (b : Nat) : Rect :=
  Rect.withCorners ⟨124, 32 - ((b : Int) * 32) / 100⟩ ⟨126, 31⟩

/-- The battery gauge ops followed by the final `flush`. -/
def batteryOps (b : Nat) : List DrawOp :=
  [DrawOp.strokeRect batteryOutline,
   DrawOp.fillRect (batteryFillRect b),
   DrawOp.flush]

/-- The full primitive trace of `DisplayController::draw`, in submission
order: clear, layer labels, modifier icons, battery gauge, flush. -/
def drawOps (st : Status) : List DrawOp :=
  DrawOp.clearBuffer
  :: (layerOps st.layer ++ iconOps st.modifiers ++ batteryOps st.battery)

/-- Height in pixels of the (corner-normalized) battery fill rectangle. -/
def batteryFillHeight (b : Nat) : Nat := (batteryFillRect b).size.height

/-- Height in pixels of the battery outline rectangle. -/
def batteryOutlineHeight : Nat := batteryOutline.size.height

/-! ## Controller state and polling lifecycle -/

/-- `rmk::event::ControllerEvent`, restricted to the variants this module
matches on; every other variant is mapped to `other` (the wildcard arm). -/
inductive ControllerEvent where
  | layer : Nat → ControllerEvent
  | modifier : ModifierCombination → ControllerEvent
  | battery : Nat → ControllerEvent
  | other : ControllerEvent
deriving DecidableEq

/-- The mutable fields of `DisplayController`: whether the optional display
handle is present, plus the status snapshot. The subscription and pin
configuration are immutable capabilities and are not part of the state. -/
structure Ctrl where
  display : Bool
  layer : Nat
  modifiers : ModifierCombination
  battery : Nat
deriving DecidableEq

/-- The status snapshot `draw` reads from the controller. -/
def Ctrl.status (c : Ctrl) : Status := ⟨c.layer, c.modifiers, c.battery⟩

/-- The primitive trace produced by `draw` on a controller state. -/
def ctrlDrawOps (c : Ctrl) : List DrawOp := drawOps c.status

/-- `DisplayController::new(...)`: no display, layer 0, no modifiers,
battery 0. -/
def initCtrl : Ctrl := ⟨false, 0, ModifierCombination.new, 0⟩

/-- Outcome of one bounded hardware transaction inside `update`:
`ok` is `Ok(Ok(_))`, `err` is a transport error (`Ok(Err(_))`), `timeout`
is the `with_timeout` deadline elapsing (`Err(TimeoutError)`). -/
inductive HwResult where
  | ok
  | err
  | timeout
deriving DecidableEq

/-- `PollingController::update`: take the handle if present and redraw with
a 100 ms timeout, restoring the handle only on `Ok(Ok(_))`; otherwise build
a fresh interface and initialize with a 1 s timeout, storing the handle only
on `Ok(Ok(_))`. -/
def update (hw : HwResult) (c : Ctrl) : Ctrl :=
  if c.display then
    match hw with
    | HwResult.ok => c
    | _ => { c with display := false }
  else
    match hw with
    | HwResult.ok => { c with display := true }
    | _ => c

/-- The `match event` arms of `Controller::process_event`: each recognized
event overwrites exactly one status field; other events are ignored. -/
def applyEvent (c : Ctrl) (e : ControllerEvent) : Ctrl :=
  match e with
  | ControllerEvent.layer i => { c with layer := i }
  | ControllerEvent.modifier m => { c with modifiers := m }
  | ControllerEvent.battery b => { c with battery := b }
  | ControllerEvent.other => c

/-- `Controller::process_event`: apply the event, then invoke `update` only
when the subscription queue length (`self.sub.len()`) is below 2. The second
component counts how many times `update` ran. -/
def process_event (hw : HwResult) (queueLen : Nat) (c : Ctrl)
    (e : ControllerEvent) : Ctrl × Nat :=
  let c2 := applyEvent c e
  if queueLen < 2 then (update hw c2, 1) else (c2, 0)

/-- Environment of one `process_event` invocation: the drained event, the
queue depth observed after applying it, and the hardware outcome. -/
structure TickInput where
  event : ControllerEvent
  queueLen : Nat
  hw : HwResult
deriving DecidableEq

/-- One `process_event` invocation as a state transition. -/
def step (c : Ctrl) (t : TickInput) : Ctrl :=
  (process_event t.hw t.queueLen c t.event).1

/-- The controller state after a sequence of processed events. -/
def runEvents (c : Ctrl) (l : List TickInput) : Ctrl := l.foldl step c

/-! ## Fault-injected execution of the draw trace -/

/-- Which primitives are fallible: every `.draw(display)?` call and the final
`flush` can fail with a transport error; `clear_buffer` is a pure memory
write and cannot. -/
def opFallible : DrawOp → Bool
  | DrawOp.clearBuffer => false
  | _ => true

/-- Execute the trace against a fault oracle (`fail k = true` means the k-th
submitted primitive fails). Returns the primitives actually attempted and
whether the whole draw succeeded; the first failure aborts the rest, exactly
as the `?` operator does in `draw`. -/
def runOps (fail : Nat → Bool) : Nat → List DrawOp → List DrawOp × Bool
  | _, [] => ([], true)
  | k, op :: rest =>
    if opFallible op && fail k then ([op], false)
    else
      let r := runOps fail (k + 1) rest
      (op :: r.1, r.2)

/-! ## Timing constants -/

/-- One second in microseconds. -/
def microsPerSec : Nat := 1000000

/-- `Duration::from_hz(hz)` as a period in microseconds (1 MHz tick base;
rounding direction is irrelevant to every stated comparison). -/
def intervalFromHz (hz : Nat) : Nat := microsPerSec / hz

/-- `PollingController::INTERVAL = Duration::from_hz(30)`. -/
def INTERVAL_us : Nat := intervalFromHz 30

/-- The redraw bound `Duration::from_millis(100)` applied to `draw`. -/
def drawTimeout_us : Nat := 100 * 1000

/-- The bring-up bound `Duration::from_secs(1)` applied to `init`. -/
def initTimeout_us : Nat := 1 * microsPerSec

/-! ## Derived notions used in the statements -/

/-- A `Layer` event carries an in-range index; all other events trivially
respect the table. -/
def eventLayerInRange : ControllerEvent → Bool
  | ControllerEvent.layer i => decide (i < LAYER_NAMES.length)
  | _ => true

/-- The combined held indicator of one modifier family, as the renderer
computes it (`left_x() || right_x()`). -/
def familyHeld (m : ModifierCombination) : IconKind → Bool
  | IconKind.shift => shiftHeld m
  | IconKind.ctrl => ctrlHeld m
  | IconKind.alt => altHeld m
  | IconKind.gui => guiHeld m

/-- The fixed horizontal offset from the display center of each icon. -/
def iconDx : IconKind → Int
  | IconKind.shift => 0
  | IconKind.ctrl => 15
  | IconKind.alt => 30
  | IconKind.gui => 45

/-- The resting (not-held) center of each icon. -/
def iconRestPos (ic : IconKind) : Pt := displayCenter + ⟨iconDx ic, 0⟩

/-- The 12x2 underline bar of each icon. -/
def iconBar (ic : IconKind) : Rect :=
  Rect.withCenter (displayCenter + ⟨iconDx ic, 5⟩) ⟨12, 2⟩

/-- The horizontal positions at which a given icon's image is submitted in a
trace, in order. -/
def imageXs (ic : IconKind) (l : List DrawOp) : List Int :=
  l.filterMap fun op =>
    match op with
    | DrawOp.image ic2 p => if ic2 = ic then some p.x else none
    | _ => none

/-! ## Helper lemmas -/

/-- Membership in a conditional singleton-or-empty list. -/
theorem mem_ite_nil {α : Type} (a : α) (p : Prop) [Decidable p] (l : List α) :
    (a ∈ if p then l else []) ↔ p ∧ a ∈ l := by
  split <;> simp_all

/-- `update` never touches the status fields. -/
theorem update_preserves_status (hw : HwResult) (c : Ctrl) :
    (update hw c).layer = c.layer ∧ (update hw c).modifiers = c.modifiers ∧
    (update hw c).battery = c.battery := by
  unfold update
  split <;> cases hw <;> simp

/-- Closed form of the battery fill height for percentages of at least 4:
the corner arithmetic yields exactly `b * 32 / 100` pixels. -/
theorem batteryFillHeight_formula (b : Nat) (h4 : 4 ≤ b) (h100 : b ≤ 100) :
    batteryFillHeight b = b * 32 / 100 := by
  have hcast : ((b : Int) * 32) / 100 = ((b * 32 / 100 : Nat) : Int) := by
    omega
  unfold batteryFillHeight batteryFillRect Rect.withCorners
  simp only [hcast]
  omega

/-- The three label anchor points are pairwise distinct (both orientations,
for rewriting). -/
theorem abovePos_ne_belowPos : abovePos ≠ belowPos := by decide

/-- See `abovePos_ne_belowPos`. -/
theorem belowPos_ne_abovePos : belowPos ≠ abovePos := by decide

/-- See `abovePos_ne_belowPos`. -/
theorem abovePos_ne_layerCenter : abovePos ≠ layerCenter := by decide

/-- See `abovePos_ne_belowPos`. -/
theorem layerCenter_ne_abovePos : layerCenter ≠ abovePos := by decide

/-- See `abovePos_ne_belowPos`. -/
theorem belowPos_ne_layerCenter : belowPos ≠ layerCenter := by decide

/-- See `abovePos_ne_belowPos`. -/
theorem layerCenter_ne_belowPos : layerCenter ≠ belowPos := by decide

/-- Text primitives only come from the layer-label pass. -/
theorem text_not_mem_iconOps (m : ModifierCombination) (s : String) (p : Pt)
    (f : FontKind) : DrawOp.text s p f ∉ iconOps m := by
  simp [iconOps, iconFamilyOps, mem_ite_nil]

/-- Text primitives only come from the layer-label pass. -/
theorem text_not_mem_batteryOps (b : Nat) (s : String) (p : Pt)
    (f : FontKind) : DrawOp.text s p f ∉ batteryOps b := by
  simp [batteryOps]

/-- Image primitives only come from the modifier-icon pass. -/
theorem image_not_mem_layerOps (l : Nat) (ic : IconKind) (p : Pt) :
    DrawOp.image ic p ∉ layerOps l := by
  simp [layerOps, mem_ite_nil]

/-- Image primitives only come from the modifier-icon pass. -/
theorem image_not_mem_batteryOps (b : Nat) (ic : IconKind) (p : Pt) :
    DrawOp.image ic p ∉ batteryOps b := by
  simp [batteryOps]

/-- Filled rectangles come from the icon pass or the battery fill. -/
theorem fillRect_not_mem_layerOps (l : Nat) (r : Rect) :
    DrawOp.fillRect r ∉ layerOps l := by
  simp [layerOps, mem_ite_nil]

/-- The only filled rectangle of the battery pass is the gauge fill. -/
theorem fillRect_mem_batteryOps (b : Nat) (r : Rect) :
    (DrawOp.fillRect r ∈ batteryOps b) ↔ r = batteryFillRect b := by
  simp [batteryOps]

/-- The buffer clear appears only once, at the head of the trace. -/
theorem clearBuffer_not_mem_layerOps (l : Nat) :
    DrawOp.clearBuffer ∉ layerOps l := by
  simp [layerOps, mem_ite_nil]

/-- The buffer clear appears only once, at the head of the trace. -/
theorem clearBuffer_not_mem_iconOps (m : ModifierCombination) :
    DrawOp.clearBuffer ∉ iconOps m := by
  simp [iconOps, iconFamilyOps, mem_ite_nil]

/-- The buffer clear appears only once, at the head of the trace. -/
theorem clearBuffer_not_mem_batteryOps (b : Nat) :
    DrawOp.clearBuffer ∉ batteryOps b := by
  simp [batteryOps]

/-- The battery fill rectangle always starts at column 124. -/
theorem batteryFillRect_topLeft_x (b : Nat) :
    (batteryFillRect b).topLeft.x = 124 := by
  unfold batteryFillRect Rect.withCorners
  simp only
  decide

/-- No icon underline bar coincides with the battery fill rectangle (their
columns differ), whatever the battery percentage. -/
theorem iconBar_ne_batteryFillRect (ic : IconKind) (b : Nat) :
    iconBar ic ≠ batteryFillRect b := by
  intro h
  have hx := congrArg (fun r => r.topLeft.x) h
  simp only [batteryFillRect_topLeft_x] at hx
  cases ic <;> exact absurd hx (by decide)

/-- An image membership in the full trace reduces to the icon pass. -/
theorem image_mem_drawOps_iff (st : Status) (ic : IconKind) (p : Pt) :
    (DrawOp.image ic p ∈ drawOps st) ↔
      DrawOp.image ic p ∈ iconOps st.modifiers := by
  simp [drawOps, image_not_mem_layerOps, image_not_mem_batteryOps]

/-- A filled-rectangle membership in the full trace reduces to the icon
pass or the battery fill. -/
theorem fillRect_mem_drawOps_iff (st : Status) (r : Rect) :
    (DrawOp.fillRect r ∈ drawOps st) ↔
      (DrawOp.fillRect r ∈ iconOps st.modifiers ∨
        r = batteryFillRect st.battery) := by
  simp [drawOps, fillRect_not_mem_layerOps, fillRect_mem_batteryOps]

/-- A text membership in the full trace reduces to the layer-label pass. -/
theorem text_mem_drawOps_iff (st : Status) (s : String) (p : Pt)
    (f : FontKind) :
    (DrawOp.text s p f ∈ drawOps st) ↔
      DrawOp.text s p f ∈ layerOps st.layer := by
  simp [drawOps, text_not_mem_iconOps, text_not_mem_batteryOps]

/-- `filterMap` through a conditional singleton-or-empty list. -/
theorem filterMap_ite_nil {α β : Type} (fn : α → Option β) (p : Prop)
    [Decidable p] (l : List α) :
    List.filterMap fn (if p then l else []) =
      if p then List.filterMap fn l else [] := by
  split <;> rfl

/-- The positions of a given icon's images in the trace are those of the
icon pass alone. -/
theorem imageXs_drawOps (st : Status) (ic : IconKind) :
    imageXs ic (drawOps st) = imageXs ic (iconOps st.modifiers) := by
  unfold imageXs drawOps layerOps batteryOps
  simp [List.filterMap_append, filterMap_ite_nil]

/-- All the m-dependent facts about the icon pass, per family: the raised
image is present exactly when the family is held, the resting image exactly
when it is not, the underline bar exactly when it is held, and the image is
submitted exactly once, at the family's fixed horizontal position. -/
theorem iconOps_family_facts (m : ModifierCombination) (ic : IconKind) :
    ((DrawOp.image ic (iconRestPos ic + ⟨0, -4⟩) ∈ iconOps m) ↔
      familyHeld m ic = true) ∧
    ((DrawOp.image ic (iconRestPos ic) ∈ iconOps m) ↔
      familyHeld m ic = false) ∧
    ((DrawOp.fillRect (iconBar ic) ∈ iconOps m) ↔
      familyHeld m ic = true) ∧
    imageXs ic (iconOps m) = [(iconRestPos ic).x] := by
  obtain ⟨a, b, c, d, e, f, g, h⟩ := m
  cases ic <;> cases a <;> cases b <;> cases c <;> cases d <;>
    cases e <;> cases f <;> cases g <;> cases h <;> decide

/-- Execution aborts at the first failing fallible primitive: the attempted
prefix is exactly the trace up to and including it, and the draw reports
failure. -/
theorem runOps_abort (fail : Nat → Bool) (ops : List DrawOp) :
    ∀ (start k : Nat), k < ops.length →
      (∀ i, i < k → fail (start + i) = false) →
      fail (start + k) = true →
      opFallible (ops.getD k DrawOp.clearBuffer) = true →
      runOps fail start ops = (ops.take (k + 1), false) := by
  induction ops with
  | nil => intro start k hk _ _ _; simp at hk
  | cons op rest ih =>
    intro start k hk hbefore hfail hfall
    cases k with
    | zero =>
      have hop : opFallible op = true := by simpa using hfall
      have hcond : (opFallible op && fail start) = true := by
        rw [hop]
        simpa using hfail
      simp [runOps, hcond]
    | succ j =>
      have h0 : fail start = false := by simpa using hbefore 0 (Nat.succ_pos j)
      have hcond : (opFallible op && fail start) = false := by simp [h0]
      have hrec := ih (start + 1) j (by simpa using hk)
        (fun i hi => by
          have heq : start + 1 + i = start + (i + 1) := by omega
          rw [heq]
          exact hbefore (i + 1) (by omega))
        (by
          have heq : start + 1 + j = start + (j + 1) := by omega
          rw [heq]
          exact hfail)
        (by simpa using hfall)
      simp [runOps, hcond, hrec]

/-- Every primitive after the initial buffer clear is fallible. -/
theorem drawOps_getD_fallible (st : Status) (k : Nat) (hk : 1 ≤ k)
    (hlen : k < (drawOps st).length) :
    opFallible ((drawOps st).getD k DrawOp.clearBuffer) = true := by
  obtain ⟨j, rfl⟩ : ∃ j, k = j + 1 := ⟨k - 1, by omega⟩
  have htail : ∀ op ∈ layerOps st.layer ++ iconOps st.modifiers
      ++ batteryOps st.battery, opFallible op = true := by
    intro op hop
    cases op
    case clearBuffer =>
      refine absurd hop ?_
      simp [clearBuffer_not_mem_layerOps, clearBuffer_not_mem_iconOps,
        clearBuffer_not_mem_batteryOps]
    all_goals rfl
  have hgd : (drawOps st).getD (j + 1) DrawOp.clearBuffer
      = (layerOps st.layer ++ iconOps st.modifiers
        ++ batteryOps st.battery).getD j DrawOp.clearBuffer := by
    simp [drawOps]
  have hlen2 : j < (layerOps st.layer ++ iconOps st.modifiers
      ++ batteryOps st.battery).length := by
    have hd : (drawOps st).length = (layerOps st.layer ++ iconOps st.modifiers
      ++ batteryOps st.battery).length + 1 := by simp [drawOps]
    omega
  rw [hgd, List.getD_eq_getElem _ _ hlen2]
  exact htail _ (List.getElem_mem hlen2)

/-! ## Claim theorems -/

/-- Claim C1, counterexample: at battery percentage 0 the corner pair
`((124, 32), (126, 31))` is inverted, and `Rectangle::with_corners`
normalizes it to a rectangle of height 2, not 0; consequently the height is
also not monotone from 0 percent to 4 percent (2 versus 1). -/
theorem battery_fill_zero_counterexample :
    batteryFillHeight 0 = 2 ∧ batteryFillHeight 0 ≠ 0 ∧
    ¬ batteryFillHeight 0 ≤ batteryFillHeight 4 := by
  decide

/-- Claim C1, amended: for battery percentages in [4, 100] the fill height
equals `b * 32 / 100` (percentage times the 32-pixel outline height over
100), is monotonically non-decreasing on that range, reaches the full
outline height at 100, and is anchored to the bottom edge (the rectangle
ends at row 31); for b below 4 the truncated proportional height is 0 and
corner normalization instead yields a height-2 rectangle. -/
theorem battery_fill_amended (b : Nat) (h4 : 4 ≤ b) (h100 : b ≤ 100) :
    batteryFillHeight b = b * 32 / 100 ∧
    (∀ b2, 4 ≤ b2 → b2 ≤ b → batteryFillHeight b2 ≤ batteryFillHeight b) ∧
    batteryFillHeight 100 = batteryOutlineHeight ∧
    (batteryFillRect b).topLeft.y + (batteryFillHeight b : Int) = 32 := by
  refine ⟨batteryFillHeight_formula b h4 h100, ?_, by decide, ?_⟩
  · intro b2 hb4 hbb
    rw [batteryFillHeight_formula b h4 h100,
      batteryFillHeight_formula b2 hb4 (le_trans hbb h100)]
    exact Nat.div_le_div_right (Nat.mul_le_mul_right 32 hbb)
  · have hcast : ((b : Int) * 32) / 100 = ((b * 32 / 100 : Nat) : Int) := by
      omega
    unfold batteryFillHeight batteryFillRect Rect.withCorners
    simp only [hcast]
    omega

/-- Claim C1 witness: at 50 percent the fill is 16 pixels of the 32. -/
theorem battery_fill_amended_witness : batteryFillHeight 50 = 50 * 32 / 100 :=
  (battery_fill_amended 50 (by decide) (by decide)).1

/-- Claim C2, counterexample: the 100 ms draw timeout is not shorter than
the tick interval of the 30 Hz schedule (33333 us). -/
theorem draw_timeout_counterexample : ¬ drawTimeout_us < INTERVAL_us := by
  decide

/-- Claim C2, amended: the frame commit from Ready is awaited with a fixed
100 ms timeout, but that timeout is strictly longer (three times longer)
than the interval of the 30 ticks-per-second schedule, so a stalled
transaction can overrun the tick interval; it is strictly shorter than the
1 s bring-up timeout. -/
theorem draw_timeout_amended :
    drawTimeout_us = 100000 ∧ INTERVAL_us = 33333 ∧
    INTERVAL_us < drawTimeout_us ∧ 3 * INTERVAL_us < drawTimeout_us ∧
    drawTimeout_us < initTimeout_us := by
  decide

/-- Claim C3, counterexample: `process_event` stores the layer payload
without validation, so the single event `Layer(8)` drives the initial state
to a stored layer index equal to the table length 8, which is not a valid
index into `LAYER_NAMES`. -/
theorem layer_invariant_counterexample :
    (runEvents initCtrl
      [⟨ControllerEvent.layer 8, 0, HwResult.ok⟩]).layer = 8 ∧
    ¬ (runEvents initCtrl
      [⟨ControllerEvent.layer 8, 0, HwResult.ok⟩]).layer
        < LAYER_NAMES.length := by
  decide

/-- Claim C3, amended: the stored layer index is a valid index into the
layer-name table in every state reachable by event sequences in which every
`Layer` event itself carries a valid index; `process_event` performs no
validation, so the invariant is conditional on the event source and a single
out-of-range `Layer` event breaks it. -/
theorem layer_invariant_amended (c : Ctrl) (l : List TickInput)
    (hc : c.layer < LAYER_NAMES.length)
    (hl : ∀ t ∈ l, eventLayerInRange t.event = true) :
    (runEvents c l).layer < LAYER_NAMES.length := by
  induction l generalizing c with
  | nil => exact hc
  | cons t ts ih =>
    have hstep : (step c t).layer < LAYER_NAMES.length := by
      have hpres := update_preserves_status t.hw (applyEvent c t.event)
      have ht := hl t (List.mem_cons_self t ts)
      unfold step process_event
      split
      · rw [hpres.1]
        cases he : t.event <;>
          simp_all [applyEvent, eventLayerInRange]
      · cases he : t.event <;>
          simp_all [applyEvent, eventLayerInRange]
    exact ih (step c t) hstep fun t2 h2 => hl t2 (List.mem_cons_of_mem t h2)

/-- Claim C3 witness: a concrete in-range event sequence keeps the index
valid. -/
theorem layer_invariant_amended_witness :
    (runEvents initCtrl
      [⟨ControllerEvent.layer 3, 0, HwResult.ok⟩,
       ⟨ControllerEvent.battery 50, 2, HwResult.err⟩,
       ⟨ControllerEvent.layer 7, 1, HwResult.timeout⟩]).layer
      < LAYER_NAMES.length :=
  layer_invariant_amended initCtrl _ (by decide) (by decide)

/-- Claim C6: the two-state lifecycle of `update` — the post-state holds a
display handle exactly when the bounded hardware transaction returned
`Ok(Ok(_))`: successful bring-up reaches Ready, successful redraw stays
Ready, and every timeout or failure (from either state) leaves the handle
absent, with no spurious Ready transition. -/
theorem lifecycle_transitions (c : Ctrl) (hw : HwResult) :
    ((update hw c).display = true ↔ hw = HwResult.ok) := by
  unfold update
  split <;> cases hw <;> simp_all

/-- Claim C8: `process_event` invokes the lifecycle tick exactly once when
the queue depth after applying the event is below 2, and not at all
otherwise, regardless of the event or the state. -/
theorem backpressure_gate (hw : HwResult) (queueLen : Nat) (c : Ctrl)
    (e : ControllerEvent) :
    (process_event hw queueLen c e).2 = if queueLen < 2 then 1 else 0 := by
  unfold process_event
  split <;> rfl

/-- Claim C9: the frame renderer is a pure function of the status snapshot —
two controller states that agree on layer, modifiers and battery produce
bit-identical primitive traces (and hence identical frame-buffer contents,
since the trace starts from a cleared buffer), whatever the rest of the
state. -/
theorem draw_deterministic (c1 c2 : Ctrl) (hl : c1.layer = c2.layer)
    (hm : c1.modifiers = c2.modifiers) (hb : c1.battery = c2.battery) :
    ctrlDrawOps c1 = ctrlDrawOps c2 := by
  unfold ctrlDrawOps Ctrl.status
  rw [hl, hm, hb]

/-- Claim C9 witness: the same status renders identically with and without a
live display handle. -/
theorem draw_deterministic_witness :
    ctrlDrawOps initCtrl = ctrlDrawOps { initCtrl with display := true } :=
  draw_deterministic initCtrl { initCtrl with display := true } rfl rfl rfl

/-- Claim C4: for every in-range layer index, one frame contains the
current layer's name in the primary font at the center anchor, the previous
name in the smaller font above the center anchor exactly when the layer is
not the first, and the next name in the smaller font below the center anchor
exactly when the layer is not the last; the above/below anchors really are
above and below the center anchor. -/
theorem layer_labels (st : Status) (h : st.layer < LAYER_NAMES.length) :
    DrawOp.text (layerName st.layer) layerCenter FontKind.font9x18
      ∈ drawOps st ∧
    (0 < st.layer ↔
      DrawOp.text (layerName (st.layer - 1)) abovePos FontKind.font6x10
        ∈ drawOps st) ∧
    (st.layer < LAYER_NAMES.length - 1 ↔
      DrawOp.text (layerName (st.layer + 1)) belowPos FontKind.font6x10
        ∈ drawOps st) ∧
    abovePos.y < layerCenter.y ∧ layerCenter.y < belowPos.y := by
  refine ⟨?_, ?_, ?_, by decide, by decide⟩
  · rw [text_mem_drawOps_iff]
    simp [layerOps, mem_ite_nil, layerCenter_ne_abovePos,
      layerCenter_ne_belowPos]
  · rw [text_mem_drawOps_iff]
    simp [layerOps, mem_ite_nil, abovePos_ne_belowPos,
      abovePos_ne_layerCenter]
  · rw [text_mem_drawOps_iff]
    simp [layerOps, mem_ite_nil, belowPos_ne_abovePos,
      belowPos_ne_layerCenter]

/-- Claim C4 witness: a concrete middle layer shows all three labels. -/
theorem layer_labels_witness :
    DrawOp.text (layerName 3) layerCenter FontKind.font9x18
      ∈ drawOps ⟨3, ModifierCombination.new, 50⟩ :=
  (layer_labels ⟨3, ModifierCombination.new, 50⟩ (by decide)).1

/-- Claim C5: for every status and every modifier family, the icon image is
drawn at its raised position (4 pixels up) exactly when a left or right flag
of that family is held, at its resting position exactly when not, the
underline bar is drawn exactly when held, the icon is drawn exactly once and
its horizontal position is the family's fixed constant independent of the
mask, and the bar lies beneath the icon anchor. -/
theorem modifier_icons (st : Status) (ic : IconKind) :
    ((DrawOp.image ic (iconRestPos ic + ⟨0, -4⟩) ∈ drawOps st) ↔
      familyHeld st.modifiers ic = true) ∧
    ((DrawOp.image ic (iconRestPos ic) ∈ drawOps st) ↔
      familyHeld st.modifiers ic = false) ∧
    ((DrawOp.fillRect (iconBar ic) ∈ drawOps st) ↔
      familyHeld st.modifiers ic = true) ∧
    imageXs ic (drawOps st) = [(iconRestPos ic).x] ∧
    (iconRestPos ic).y < (iconBar ic).topLeft.y := by
  have hf := iconOps_family_facts st.modifiers ic
  refine ⟨?_, ?_, ?_, ?_, ?_⟩
  · rw [image_mem_drawOps_iff]
    exact hf.1
  · rw [image_mem_drawOps_iff]
    exact hf.2.1
  · rw [fillRect_mem_drawOps_iff]
    constructor
    · rintro (hin | hin)
      · exact hf.2.2.1.mp hin
      · exact absurd hin (iconBar_ne_batteryFillRect ic st.battery)
    · intro hheld
      exact Or.inl (hf.2.2.1.mpr hheld)
  · rw [imageXs_drawOps]
    exact hf.2.2.2
  · cases ic <;> decide

/-- Claim C7: transport timeouts and transport failures are handled
identically — the first failing draw call aborts the remaining draws (the
attempted trace is exactly the prefix through the failing primitive), the
tick's post-states for timeout and failure coincide, and in both the sole
observable effect is that the display handle is absent; `update` is a total
function, so no error escapes the tick. -/
theorem error_containment (c : Ctrl) (fail : Nat → Bool) (k : Nat)
    (hk : 1 ≤ k) (hlen : k < (ctrlDrawOps c).length)
    (hbefore : ∀ i, i < k → fail i = false) (hfail : fail k = true) :
    runOps fail 0 (ctrlDrawOps c) = ((ctrlDrawOps c).take (k + 1), false) ∧
    update HwResult.timeout c = update HwResult.err c ∧
    (update HwResult.timeout c).display = false ∧
    (update HwResult.err c).display = false := by
  refine ⟨?_, ?_, ?_, ?_⟩
  · exact runOps_abort fail (ctrlDrawOps c) 0 k hlen
      (fun i hi => by simpa using hbefore i hi)
      (by simpa using hfail)
      (drawOps_getD_fallible c.status k hk hlen)
  · unfold update
    split <;> rfl
  · unfold update
    split <;> simp_all
  · unfold update
    split <;> simp_all

/-- Claim C7 witness: with the third primitive failing, the attempted trace
of the initial state is its first three primitives and the tick ends without
a handle. -/
theorem error_containment_witness :
    runOps (fun i => decide (i = 2)) 0 (ctrlDrawOps initCtrl)
      = ((ctrlDrawOps initCtrl).take 3, false) ∧
    update HwResult.timeout initCtrl = update HwResult.err initCtrl ∧
    (update HwResult.timeout initCtrl).display = false ∧
    (update HwResult.err initCtrl).display = false :=
  error_containment initCtrl (fun i => decide (i = 2)) 2 (by decide)
    (by decide) (by decide) (by decide)

/-- Claim C10: the lifecycle tick never modifies the status snapshot — for
every starting state and every transaction outcome, `update` leaves layer,
modifiers and battery unchanged; only the display handle may differ. -/
theorem update_frame_effect (hw : HwResult) (c : Ctrl) :
    (update hw c).layer = c.layer ∧ (update hw c).modifiers = c.modifiers ∧
    (update hw c).battery = c.battery :=
  update_preserves_status hw c

end Falange
